import Mathlib

/-!
Verification development for the desktop sticky-calendar application
(source file app.py).  The application keeps two in-memory Python dicts —
`self.events` mapping ISO "yyyy-MM-dd" date strings to event records
with fields type / description / color, and `self.event_types` mapping
type names to records with a color field — and persists each as a JSON
file.  A highlight pass derives per-date text formats from the events
dict.  We embed the dicts as association lists that keep insertion
order (exactly what a Python dict is), JSON file contents as a JSON
value tree together with the serialization parameters that the source
passes to json.dump, and each UI flow as a pure state transformer whose
dialog outcomes are explicit parameters.
-/

namespace StickyCalendar

/-- JSON values as produced and consumed by Python's json module.
Objects keep their key order, as Python dicts do. -/
inductive Json where
  | null : Json
  | bool : Bool → Json
  | num : Int → Json
  | str : String → Json
  | arr : List Json → Json
  | obj : List (String × Json) → Json

/-- An event attached to one date: the value type of `self.events`
(app.py line 356: keys "type", "description", "color"). -/
structure EventRecord where
  type : String
  description : String
  color : String
deriving DecidableEq, Repr

/-- The value type of `self.event_types` (app.py line 587: key "color"). -/
structure TypeRecord where
  color : String
deriving DecidableEq, Repr

/-- The dict `self.events` from date strings to event records,
embedded as an insertion-ordered association list with distinct keys. -/
abbrev EventsMap : Type := List (String × EventRecord)

/-- The dict `self.event_types` from type names to type records. -/
abbrev TypesMap : Type := List (String × TypeRecord)

/-- Dict read `m[k]` and the test `k in m`: the value at the first
matching key. -/
def lookupA {α : Type} : List (String × α) → String → Option α
  | [], _ => none
  | (k, v) :: rest, key => if k = key then some v else lookupA rest key

/-- Dict write `m[k] = v`: update in place if the key exists (keeping
its position, as Python dicts do), otherwise append at the end. -/
def setA {α : Type} : List (String × α) → String → α → List (String × α)
  | [], key, val => [(key, val)]
  | (k, v) :: rest, key, val =>
      if k = key then (k, val) :: rest else (k, v) :: setA rest key val

/-- Dict delete `del m[k]`: drop the first binding of the key. -/
def eraseA {α : Type} : List (String × α) → String → List (String × α)
  | [], _ => []
  | (k, v) :: rest, key => if k = key then rest else (k, v) :: eraseA rest key

/-- The keys of a dict, in order. -/
def keysA {α : Type} (m : List (String × α)) : List String :=
  m.map Prod.fst

/-- json.dump of one event record (the dict literal of app.py 356-360). -/
def encodeRecord (r : EventRecord) : Json :=
  Json.obj [("type", Json.str r.type), ("description", Json.str r.description),
            ("color", Json.str r.color)]

/-- Reading one event record back from parsed JSON.  `some` exactly on
well-formed records (the shape json.dump produces from an EventRecord). -/
def decodeRecord : Json → Option EventRecord
  | Json.obj [("type", Json.str t), ("description", Json.str d), ("color", Json.str c)] =>
      some ⟨t, d, c⟩
  | _ => none

/-- json.dump of one type record (the dict literal of app.py 587). -/
def encodeTypeRecord (r : TypeRecord) : Json :=
  Json.obj [("color", Json.str r.color)]

/-- Reading one type record back from parsed JSON. -/
def decodeTypeRecord : Json → Option TypeRecord
  | Json.obj [("color", Json.str c)] => some ⟨c⟩
  | _ => none

/-- json.dump of the whole events dict. -/
def encodeEvents (m : EventsMap) : Json :=
  Json.obj (m.map fun p => (p.1, encodeRecord p.2))

/-- Reading an object's entries back into a typed events map; `some`
exactly when every value is a well-formed event record. -/
def decodeEventEntries : List (String × Json) → Option EventsMap
  | [] => some []
  | (k, v) :: rest =>
      match decodeRecord v, decodeEventEntries rest with
      | some r, some m => some ((k, r) :: m)
      | _, _ => none

/-- Reading a whole events dict from parsed JSON. -/
def decodeEvents : Json → Option EventsMap
  | Json.obj entries => decodeEventEntries entries
  | _ => none

/-- json.dump of the whole event-types dict. -/
def encodeTypes (m : TypesMap) : Json :=
  Json.obj (m.map fun p => (p.1, encodeTypeRecord p.2))

/-- Reading an object's entries back into a typed event-types map. -/
def decodeTypeEntries : List (String × Json) → Option TypesMap
  | [] => some []
  | (k, v) :: rest =>
      match decodeTypeRecord v, decodeTypeEntries rest with
      | some r, some m => some ((k, r) :: m)
      | _, _ => none

/-- Reading a whole event-types dict from parsed JSON. -/
def decodeTypes : Json → Option TypesMap
  | Json.obj entries => decodeTypeEntries entries
  | _ => none

/-- The bytes on disk of one JSON file, abstracted to the parsed JSON
value plus the serialization parameters the source passes:
open with encoding "utf-8" and json.dump with ensure_ascii=False,
indent=2) at app.py 217-218, 227-228, 237-238, 247-248. -/
structure FileData where
  content : Json
  encoding : String
  ensureAscii : Bool
  indent : Nat

/-- What save_events writes for an in-memory events dict. -/
def mkEventsFile (m : EventsMap) : FileData :=
  { content := encodeEvents m, encoding := "utf-8", ensureAscii := false, indent := 2 }

/-- What save_event_types writes for an in-memory event-types dict. -/
def mkTypesFile (m : TypesMap) : FileData :=
  { content := encodeTypes m, encoding := "utf-8", ensureAscii := false, indent := 2 }

/-- An RGB triple with 8-bit channels, the resolved form of a QColor. -/
structure Rgb where
  r : Nat
  g : Nat
  b : Nat
deriving DecidableEq, Repr

/-- A QColor built from a string: either a valid resolved color or the
invalid color that QColor(...) yields for an unrecognized name. -/
inductive QColorM where
  | valid : Rgb → QColorM
  | invalid : QColorM
deriving DecidableEq, Repr

/-- Value of one hex digit, as QColor's #RRGGBB parser reads it. -/
def hexDigitVal (c : Char) : Option Nat :=
  if '0' ≤ c ∧ c ≤ '9' then some (c.toNat - '0'.toNat)
  else if 'a' ≤ c ∧ c ≤ 'f' then some (c.toNat - 'a'.toNat + 10)
  else if 'A' ≤ c ∧ c ≤ 'F' then some (c.toNat - 'A'.toNat + 10)
  else none

/-- Two hex digits as one 8-bit channel. -/
def hexByte (hi lo : Char) : Option Nat :=
  match hexDigitVal hi, hexDigitVal lo with
  | some h, some l => some (16 * h + l)
  | _, _ => none

/-- QColor(name) for the SVG color names the source uses
("red", "white", "black", "blue"); other names are not needed by any
code path we model and map to the invalid color. -/
def namedColor (s : String) : QColorM :=
  if s = "red" then QColorM.valid ⟨255, 0, 0⟩
  else if s = "white" then QColorM.valid ⟨255, 255, 255⟩
  else if s = "black" then QColorM.valid ⟨0, 0, 0⟩
  else if s = "blue" then QColorM.valid ⟨0, 0, 255⟩
  else QColorM.invalid

/-- QColor(s): the "#RRGGBB" hex form, else a color name. -/
def parseQColor (s : String) : QColorM :=
  match s.toList with
  | '#' :: [c1, c2, c3, c4, c5, c6] =>
      match hexByte c1 c2, hexByte c3 c4, hexByte c5 c6 with
      | some r, some g, some b => QColorM.valid ⟨r, g, b⟩
      | _, _, _ => QColorM.invalid
  | _ => namedColor s

/-- QColor.lightness(): the HSL lightness on the 0..255 scale, which Qt
computes as the rounded average of the largest and smallest channel;
0 for the invalid color. -/
def qlightness : QColorM → Nat
  | QColorM.invalid => 0
  | QColorM.valid c => (max c.r (max c.g c.b) + min c.r (min c.g c.b) + 1) / 2

/-- A QTextCharFormat as the source builds it: a foreground and a
background brush (every format the code applies sets both). -/
structure CharFormat where
  foreground : QColorM
  background : QColorM
deriving DecidableEq, Repr

/-- The calendar's per-date text formats, set by setDateTextFormat.
Keyed by the "yyyy-MM-dd" date string (well-formed keys parse to
distinct QDates, so string keys are faithful). -/
abbrev FormatMap : Type := List (String × CharFormat)

/-- highlight_date with highlight=True (app.py 388-400): white text,
background QColor(color) — where a missing or empty color falls back to
"red" — except black text when the background's lightness exceeds 200. -/
def highlightFormat (color : String) : CharFormat :=
  let c := if color = "" then "red" else color
  let bg := parseQColor c
  let fg := if qlightness bg > 200 then namedColor "black" else namedColor "white"
  { foreground := fg, background := bg }

/-- highlight_date with highlight=False (app.py 401-403): Qt.black text
on a Qt.white background. -/
def neutralFormat : CharFormat :=
  { foreground := QColorM.valid ⟨0, 0, 0⟩, background := QColorM.valid ⟨255, 255, 255⟩ }

/-- The "no event today" style (app.py 266-270 and 369-373): blue text
on the light-blue "#ADD8E6" background. -/
def todayFallbackFormat : CharFormat :=
  { foreground := namedColor "blue", background := parseQColor "#ADD8E6" }

/-- The loop of refresh_highlight (app.py 259-262): highlight every
date that has an event with its record's color (info.get with default
"red" — highlightFormat applies the same default to an empty color). -/
def applyHighlights (events : EventsMap) (formats : FormatMap) : FormatMap :=
  events.foldl (fun fs p => setA fs p.1 (highlightFormat p.2.color)) formats

/-- refresh_highlight (app.py 253-270): highlight every date that has an
event, then, if today has no event, give today the fallback style. -/
def refresh_highlight (events : EventsMap) (todayStr : String)
    (formats : FormatMap) : FormatMap :=
  let formats1 := applyHighlights events formats
  if lookupA events todayStr = none then
    setA formats1 todayStr todayFallbackFormat
  else formats1

/-- The two data files on disk; `none` means the file does not exist. -/
structure Disk where
  eventsFile : Option FileData
  typesFile : Option FileData

/-- The mutable state the UI flows touch: both in-memory dicts, the
calendar's per-date formats, and the on-disk files.  Writes here are the
successful-write case; the failure path of save is modeled separately
by saveFileOp. -/
structure AppState where
  events : EventsMap
  event_types : TypesMap
  formats : FormatMap
  disk : Disk

/-- A text dialog outcome: `none` is Cancel; `some s` is OK with text s
(Python treats OK-with-empty-text the same as Cancel: `not text`). -/
def dialogBlank : Option String → Bool
  | none => true
  | some s => s = ""

/-- How the call sites of load_events / load_event_types observe one
JSON file: absent (os.path.exists false), unreadable or malformed
(json.load raises), or parsed content. -/
inductive FileRead where
  | absent : FileRead
  | corrupt : FileRead
  | content : Json → FileRead

/-- load_events (app.py 169-184).  Absent file: events becomes the empty
dict and save_events immediately writes it out (the file then holds the
empty JSON object).  Unreadable or malformed file: log, events becomes
the empty dict, nothing is written.  Parsed content: the source assigns
json.load's result directly; we read it into the typed map, and the
claims evaluate this branch only on well-formed content, where
decodeEvents succeeds.  Returns the new in-memory dict and the events
file afterward (write assumed to succeed, see saveFileOp for failures). -/
def load_events (fr : FileRead) (file0 : Option FileData) :
    EventsMap × Option FileData :=
  match fr with
  | FileRead.absent => ([], some (mkEventsFile []))
  | FileRead.corrupt => ([], file0)
  | FileRead.content j => ((decodeEvents j).getD [], file0)

/-- create_default_event_types (app.py 201-211): the four seeded
type→color pairs, immediately saved. -/
def defaultEventTypes : TypesMap :=
  [("会议", ⟨"#FF5733"⟩), ("生日", ⟨"#33FF57"⟩),
   ("假期", ⟨"#3357FF"⟩), ("纪念日", ⟨"#FF33A8"⟩)]

/-- load_event_types (app.py 186-199).  Absent file: falls through to
create_default_event_types, which seeds four defaults and saves them.
Unreadable or malformed file: logs, then also calls
create_default_event_types.  Parsed content: assigned directly, read
into the typed map as in load_events. -/
def load_event_types (fr : FileRead) (file0 : Option FileData) :
    TypesMap × Option FileData :=
  match fr with
  | FileRead.absent => (defaultEventTypes, some (mkTypesFile defaultEventTypes))
  | FileRead.corrupt => (defaultEventTypes, some (mkTypesFile defaultEventTypes))
  | FileRead.content j => ((decodeTypes j).getD [], file0)

/-- Whether one attempt to open-and-write the file raises. -/
inductive WriteOutcome where
  | ok : WriteOutcome
  | fail : WriteOutcome
deriving DecidableEq

/-- The environment of one save call: the fate of the first write
attempt and of the retry after os.makedirs. -/
structure SaveEnv where
  firstWrite : WriteOutcome
  secondWrite : WriteOutcome

/-- The file-system state a save call sees: the target file and whether
its directory exists. -/
structure FsState where
  file : Option FileData
  dirExists : Bool

/-- Everything observable about one save_events / save_event_types call. -/
structure SaveResult where
  fs : FsState
  attempts : Nat
  madeDir : Bool
  raised : Bool
  inMemory : Json

/-- The shared shape of save_events (app.py 213-231) and
save_event_types (app.py 233-251): try to write the serialized dict;
on an exception, os.makedirs(dirname, exist_ok=True) and retry the
write once; if the retry also raises, log and return — every exception
is caught, nothing propagates, and the in-memory dict (here carried as
its serialization) is never modified. -/
def saveFileOp (data : FileData) (env : SaveEnv) (fs : FsState) : SaveResult :=
  match env.firstWrite with
  | WriteOutcome.ok =>
      { fs := { fs with file := some data }, attempts := 1, madeDir := false,
        raised := false, inMemory := data.content }
  | WriteOutcome.fail =>
      match env.secondWrite with
      | WriteOutcome.ok =>
          { fs := { file := some data, dirExists := true }, attempts := 2,
            madeDir := true, raised := false, inMemory := data.content }
      | WriteOutcome.fail =>
          { fs := { fs with dirExists := true }, attempts := 2,
            madeDir := true, raised := false, inMemory := data.content }

/-- save_events on an events dict. -/
def save_events (m : EventsMap) (env : SaveEnv) (fs : FsState) : SaveResult :=
  saveFileOp (mkEventsFile m) env fs

/-- save_event_types on an event-types dict. -/
def save_event_types (m : TypesMap) (env : SaveEnv) (fs : FsState) : SaveResult :=
  saveFileOp (mkTypesFile m) env fs

/-- The color of a predefined type chosen in the add-event item dialog
(app.py 344: `self.event_types[event_type]["color"]`).  QInputDialog.getItem
with editable=False only ever returns a key of the dict, so the missing
branch is unreachable at every call site; its value is immaterial. -/
def typeColorOf (m : TypesMap) (k : String) : String :=
  match lookupA m k with
  | some rec => rec.color
  | none => ""

/-- The commit tail of the add-event flow (app.py 355-362): store the
record under the selected date, highlight that date with the chosen
color, and save the events dict. -/
def commitAddEvent (s : AppState) (dateStr eventType eventDesc colorName : String) :
    AppState :=
  let events := setA s.events dateStr
    { type := eventType, description := eventDesc, color := colorName }
  { s with
    events := events,
    formats := setA s.formats dateStr (highlightFormat colorName),
    disk := { s.disk with eventsFile := some (mkEventsFile events) } }

/-- The addAction branch of open_context_menu (app.py 316-362).  Dialog
outcomes are parameters: `desc` the description text, `item` the
getItem choice over the predefined type names plus "自定义...", `ttext`
and `ctext` the free-text type and color.  Any cancelled or empty
dialog returns with no change. -/
def addEventAction (s : AppState) (dateStr : String)
    (desc item ttext ctext : Option String) : AppState :=
  match desc with
  | none => s
  | some descStr =>
    if descStr = "" then s
    else if s.event_types.isEmpty then
      match ttext with
      | none => s
      | some t =>
        if t = "" then s
        else match ctext with
          | none => s
          | some c =>
            if c = "" then s
            else commitAddEvent s dateStr t descStr c
    else
      match item with
      | none => s
      | some chosen =>
        if chosen = "" then s
        else if chosen = "自定义..." then
          match ttext with
          | none => s
          | some t =>
            if t = "" then s
            else match ctext with
              | none => s
              | some c =>
                if c = "" then s
                else commitAddEvent s dateStr t descStr c
        else commitAddEvent s dateStr chosen descStr (typeColorOf s.event_types chosen)

/-- The removeAction branch of open_context_menu (app.py 363-373): only
if the selected date has an event, delete it, reset the date's format
to neutral, save the events dict, and, when the date is today, re-apply
the fallback today format. -/
def removeEventAction (s : AppState) (dateStr todayStr : String) : AppState :=
  if (lookupA s.events dateStr).isSome then
    let events := eraseA s.events dateStr
    let formats := setA s.formats dateStr neutralFormat
    let formats := if dateStr = todayStr
      then setA formats dateStr todayFallbackFormat else formats
    { s with
      events := events,
      formats := formats,
      disk := { s.disk with eventsFile := some (mkEventsFile events) } }
  else s

/-- The editAction branch of open_context_menu (app.py 374-380): if the
selected date has an event and the dialog yields a non-empty type,
overwrite the record's type field and save. -/
def editEventAction (s : AppState) (dateStr : String)
    (newType : Option String) : AppState :=
  match lookupA s.events dateStr with
  | none => s
  | some r =>
    match newType with
    | none => s
    | some t =>
      if t = "" then s
      else
        let events := setA s.events dateStr { r with type := t }
        { s with
          events := events,
          disk := { s.disk with eventsFile := some (mkEventsFile events) } }

/-- add_event_type (app.py 570-589): name dialog, duplicate check with a
warning box, color dialog, then insert and save the types dict.  A
cancelled or empty dialog, or an existing name, leaves everything
unchanged. -/
def addEventTypeAction (s : AppState) (nameInput colorInput : Option String) :
    AppState :=
  match nameInput with
  | none => s
  | some n =>
    if n = "" then s
    else if (lookupA s.event_types n).isSome then s
    else match colorInput with
      | none => s
      | some c =>
        if c = "" then s
        else
          let types := setA s.event_types n ⟨c⟩
          { s with
            event_types := types,
            disk := { s.disk with typesFile := some (mkTypesFile types) } }

/-- edit_event_type (app.py 591-622): bail out if there are no types;
pick a type name (getItem over the keys), pick a new color; then set
that type's color, save the types dict, overwrite the color field of
every event whose type equals the chosen name, save the events dict,
and refresh the highlights. -/
def editEventTypeAction (s : AppState) (todayStr : String)
    (choice colorInput : Option String) : AppState :=
  if s.event_types.isEmpty then s
  else match choice with
  | none => s
  | some t =>
    if t = "" then s
    else match colorInput with
      | none => s
      | some c =>
        if c = "" then s
        else
          let types := setA s.event_types t ⟨c⟩
          let events := s.events.map fun p =>
            if p.2.type = t then (p.1, { p.2 with color := c }) else p
          { events := events,
            event_types := types,
            formats := refresh_highlight events todayStr s.formats,
            disk := { eventsFile := some (mkEventsFile events),
                      typesFile := some (mkTypesFile types) } }

/-- delete_event_type (app.py 624-645): bail out if there are no types;
pick a type name; confirm with a yes/no box; on yes, delete the type
and save the types dict. -/
def deleteEventTypeAction (s : AppState) (choice : Option String)
    (confirmYes : Bool) : AppState :=
  if s.event_types.isEmpty then s
  else match choice with
  | none => s
  | some t =>
    if t = "" then s
    else if confirmYes then
      let types := eraseA s.event_types t
      { s with
        event_types := types,
        disk := { s.disk with typesFile := some (mkTypesFile types) } }
    else s

/-- The spec's sample store: one event on 2024-03-15 of type "Meeting"
with color "#FF5733". -/
def sampleEvents : EventsMap :=
  [("2024-03-15", { type := "Meeting", description := "team sync", color := "#FF5733" })]

/-- A small concrete application state used to instantiate theorems. -/
def sampleState : AppState :=
  { events := sampleEvents,
    event_types := [("Meeting", { color := "#FF5733" })],
    formats := [],
    disk := { eventsFile := none, typesFile := none } }

/-! Laws of the dict operations. -/

theorem lookupA_setA_self {α : Type} (m : List (String × α)) (k : String) (v : α) :
    lookupA (setA m k v) k = some v := by
  induction m with
  | nil => simp [setA, lookupA]
  | cons p rest ih =>
      obtain ⟨a, b⟩ := p
      by_cases h : a = k
      · simp [setA, h, lookupA]
      · simp [setA, h, lookupA, ih]

theorem lookupA_setA_ne {α : Type} (m : List (String × α)) (k key : String) (v : α)
    (h : k ≠ key) : lookupA (setA m k v) key = lookupA m key := by
  induction m with
  | nil => simp [setA, lookupA, h]
  | cons p rest ih =>
      obtain ⟨a, b⟩ := p
      by_cases ha : a = k
      · subst ha; simp [setA, lookupA, h]
      · simp [setA, ha, lookupA, ih]

theorem mem_keysA_of_mem {α : Type} {m : List (String × α)} {k : String} {v : α}
    (h : (k, v) ∈ m) : k ∈ keysA m :=
  List.mem_map.mpr ⟨(k, v), h, rfl⟩

theorem lookupA_eq_none_iff {α : Type} (m : List (String × α)) (k : String) :
    lookupA m k = none ↔ k ∉ keysA m := by
  induction m with
  | nil => simp [lookupA, keysA]
  | cons p rest ih =>
      obtain ⟨a, b⟩ := p
      by_cases h : a = k
      · subst h
        simp [lookupA, keysA]
      · simp [lookupA, keysA, h, Ne.symm h]
        simpa [keysA] using ih

theorem lookupA_of_mem {α : Type} {m : List (String × α)} {k : String} {v : α}
    (hn : (keysA m).Nodup) (h : (k, v) ∈ m) : lookupA m k = some v := by
  induction m with
  | nil => cases h
  | cons p rest ih =>
      obtain ⟨a, b⟩ := p
      have hn' : a ∉ keysA rest ∧ (keysA rest).Nodup := List.nodup_cons.mp hn
      rcases List.mem_cons.mp h with h1 | h1
      · have h2 : k = a ∧ v = b := by simpa using h1
        obtain ⟨rfl, rfl⟩ := h2
        simp [lookupA]
      · have hak : a ≠ k := fun he => hn'.1 (he ▸ mem_keysA_of_mem h1)
        simp [lookupA, hak]
        exact ih hn'.2 h1

theorem lookupA_eraseA_self {α : Type} (m : List (String × α)) (k : String)
    (hn : (keysA m).Nodup) : lookupA (eraseA m k) k = none := by
  induction m with
  | nil => simp [eraseA, lookupA]
  | cons p rest ih =>
      obtain ⟨a, b⟩ := p
      have hn' : a ∉ keysA rest ∧ (keysA rest).Nodup := List.nodup_cons.mp hn
      by_cases h : a = k
      · subst h
        simp [eraseA]
        exact (lookupA_eq_none_iff rest a).mpr hn'.1
      · simp [eraseA, h, lookupA, ih hn'.2]

theorem lookupA_applyHighlights_not_mem (events : EventsMap) (formats : FormatMap)
    (k : String) (h : k ∉ keysA events) :
    lookupA (applyHighlights events formats) k = lookupA formats k := by
  induction events generalizing formats with
  | nil => simp [applyHighlights]
  | cons p rest ih =>
      obtain ⟨a, b⟩ := p
      have h' : k ≠ a ∧ k ∉ keysA rest := by simpa [keysA] using h
      show lookupA (applyHighlights rest (setA formats a (highlightFormat b.color))) k
        = lookupA formats k
      rw [ih _ h'.2, lookupA_setA_ne _ _ _ _ (Ne.symm h'.1)]

theorem lookupA_applyHighlights_mem (events : EventsMap) (formats : FormatMap)
    (k : String) (r : EventRecord) (hn : (keysA events).Nodup) (h : (k, r) ∈ events) :
    lookupA (applyHighlights events formats) k = some (highlightFormat r.color) := by
  induction events generalizing formats with
  | nil => cases h
  | cons p rest ih =>
      obtain ⟨a, b⟩ := p
      have hn' : a ∉ keysA rest ∧ (keysA rest).Nodup := List.nodup_cons.mp hn
      show lookupA (applyHighlights rest (setA formats a (highlightFormat b.color))) k
        = some (highlightFormat r.color)
      rcases List.mem_cons.mp h with h1 | h1
      · have h2 : k = a ∧ r = b := by simpa using h1
        obtain ⟨rfl, rfl⟩ := h2
        rw [lookupA_applyHighlights_not_mem _ _ _ hn'.1]
        exact lookupA_setA_self _ _ _
      · exact ih _ hn'.2 h1

theorem refresh_lookup_of_mem (events : EventsMap) (todayStr : String)
    (formats : FormatMap) (d : String) (r : EventRecord)
    (hn : (keysA events).Nodup) (h : (d, r) ∈ events) :
    lookupA (refresh_highlight events todayStr formats) d =
      some (highlightFormat r.color) := by
  unfold refresh_highlight
  by_cases ht : lookupA events todayStr = none
  · have hd : todayStr ≠ d := by
      intro he; subst he
      exact ((lookupA_eq_none_iff events todayStr).mp ht) (mem_keysA_of_mem h)
    simp [ht]
    rw [lookupA_setA_ne _ _ _ _ hd]
    exact lookupA_applyHighlights_mem _ _ _ _ hn h
  · simp [ht]
    exact lookupA_applyHighlights_mem _ _ _ _ hn h

theorem refresh_lookup_today (events : EventsMap) (todayStr : String)
    (formats : FormatMap) (h : lookupA events todayStr = none) :
    lookupA (refresh_highlight events todayStr formats) todayStr =
      some todayFallbackFormat := by
  unfold refresh_highlight
  simp [h, lookupA_setA_self]

theorem lookupA_map_cascade (l : EventsMap) (T c d : String) :
    lookupA (l.map fun p => if p.2.type = T then (p.1, { p.2 with color := c }) else p) d
      = (lookupA l d).map fun r => if r.type = T then { r with color := c } else r := by
  induction l with
  | nil => simp [lookupA]
  | cons p rest ih =>
      obtain ⟨a, b⟩ := p
      simp only [List.map_cons]
      by_cases hb : b.type = T
      · rw [if_pos hb]
        by_cases ha : a = d
        · subst ha
          simp [lookupA, hb]
        · simp [lookupA, ha, ih]
      · rw [if_neg hb]
        by_cases ha : a = d
        · subst ha
          simp [lookupA, hb]
        · simp [lookupA, ha, ih]

/-! The JSON encoding round-trips. -/

theorem decodeRecord_encodeRecord (r : EventRecord) :
    decodeRecord (encodeRecord r) = some r := rfl

theorem decodeEventEntries_encode (m : EventsMap) :
    decodeEventEntries (m.map fun p => (p.1, encodeRecord p.2)) = some m := by
  induction m with
  | nil => rfl
  | cons p rest ih =>
      obtain ⟨a, b⟩ := p
      simp [decodeEventEntries, decodeRecord_encodeRecord, ih]

theorem decodeEvents_encodeEvents (m : EventsMap) :
    decodeEvents (encodeEvents m) = some m := by
  simp [decodeEvents, encodeEvents, decodeEventEntries_encode]

/-! Each mutation flow returns the state untouched when a dialog in it
is cancelled or comes back empty. -/

theorem addEvent_abort_desc (s : AppState) (dateStr : String)
    (desc item ttext ctext : Option String) (h : dialogBlank desc = true) :
    addEventAction s dateStr desc item ttext ctext = s := by
  cases desc with
  | none => rfl
  | some ds =>
      simp only [dialogBlank, decide_eq_true_eq] at h
      simp [addEventAction, h]

theorem addEvent_abort_item (s : AppState) (dateStr : String)
    (desc item ttext ctext : Option String)
    (hne : s.event_types.isEmpty = false) (h : dialogBlank item = true) :
    addEventAction s dateStr desc item ttext ctext = s := by
  cases desc with
  | none => rfl
  | some ds =>
      by_cases hds : ds = ""
      · simp [addEventAction, hds]
      · cases item with
        | none => simp [addEventAction, hds, hne]
        | some it =>
            simp only [dialogBlank, decide_eq_true_eq] at h
            simp [addEventAction, hds, hne, h]

theorem addEvent_abort_ttext (s : AppState) (dateStr : String)
    (desc item ttext ctext : Option String)
    (hcase : s.event_types.isEmpty = true ∨ item = some "自定义...")
    (h : dialogBlank ttext = true) :
    addEventAction s dateStr desc item ttext ctext = s := by
  cases desc with
  | none => rfl
  | some ds =>
      by_cases hds : ds = ""
      · simp [addEventAction, hds]
      · by_cases hne : s.event_types.isEmpty = true
        · cases ttext with
          | none => simp [addEventAction, hds, hne]
          | some t =>
              simp only [dialogBlank, decide_eq_true_eq] at h
              simp [addEventAction, hds, hne, h]
        · have hne' : s.event_types.isEmpty = false := by simpa using hne
          have hitem : item = some "自定义..." := hcase.resolve_left (by simp [hne'])
          subst hitem
          cases ttext with
          | none => simp [addEventAction, hds, hne']
          | some t =>
              simp only [dialogBlank, decide_eq_true_eq] at h
              simp [addEventAction, hds, hne', h]

theorem addEvent_abort_ctext (s : AppState) (dateStr : String)
    (desc item ttext ctext : Option String)
    (hcase : s.event_types.isEmpty = true ∨ item = some "自定义...")
    (h : dialogBlank ctext = true) :
    addEventAction s dateStr desc item ttext ctext = s := by
  cases desc with
  | none => rfl
  | some ds =>
      by_cases hds : ds = ""
      · simp [addEventAction, hds]
      · by_cases hne : s.event_types.isEmpty = true
        · cases ttext with
          | none => simp [addEventAction, hds, hne]
          | some t =>
              by_cases ht : t = ""
              · simp [addEventAction, hds, hne, ht]
              · cases ctext with
                | none => simp [addEventAction, hds, hne, ht]
                | some ct =>
                    simp only [dialogBlank, decide_eq_true_eq] at h
                    simp [addEventAction, hds, hne, ht, h]
        · have hne' : s.event_types.isEmpty = false := by simpa using hne
          have hitem : item = some "自定义..." := hcase.resolve_left (by simp [hne'])
          subst hitem
          cases ttext with
          | none => simp [addEventAction, hds, hne']
          | some t =>
              by_cases ht : t = ""
              · simp [addEventAction, hds, hne', ht]
              · cases ctext with
                | none => simp [addEventAction, hds, hne', ht]
                | some ct =>
                    simp only [dialogBlank, decide_eq_true_eq] at h
                    simp [addEventAction, hds, hne', ht, h]

theorem editEvent_abort (s : AppState) (dateStr : String)
    (ntype : Option String) (h : dialogBlank ntype = true) :
    editEventAction s dateStr ntype = s := by
  unfold editEventAction
  cases hl : lookupA s.events dateStr with
  | none => rfl
  | some r =>
      cases ntype with
      | none => rfl
      | some t =>
          simp only [dialogBlank, decide_eq_true_eq] at h
          simp [h]

theorem addType_abort_name (s : AppState) (nameInput colorInput : Option String)
    (h : dialogBlank nameInput = true) :
    addEventTypeAction s nameInput colorInput = s := by
  cases nameInput with
  | none => rfl
  | some n =>
      simp only [dialogBlank, decide_eq_true_eq] at h
      simp [addEventTypeAction, h]

theorem addType_abort_color (s : AppState) (nameInput colorInput : Option String)
    (h : dialogBlank colorInput = true) :
    addEventTypeAction s nameInput colorInput = s := by
  cases nameInput with
  | none => rfl
  | some n =>
      by_cases hn : n = ""
      · simp [addEventTypeAction, hn]
      · by_cases hex : (lookupA s.event_types n).isSome = true
        · simp [addEventTypeAction, hn, hex]
        · cases colorInput with
          | none => simp [addEventTypeAction, hn, hex]
          | some ct =>
              simp only [dialogBlank, decide_eq_true_eq] at h
              simp [addEventTypeAction, hn, hex, h]

theorem editType_abort_choice (s : AppState) (todayStr : String)
    (choice colorInput : Option String) (h : dialogBlank choice = true) :
    editEventTypeAction s todayStr choice colorInput = s := by
  by_cases hne : s.event_types.isEmpty = true
  · simp [editEventTypeAction, hne]
  · have hne' : s.event_types.isEmpty = false := by simpa using hne
    cases choice with
    | none => simp [editEventTypeAction, hne']
    | some t =>
        simp only [dialogBlank, decide_eq_true_eq] at h
        simp [editEventTypeAction, hne', h]

theorem editType_abort_color (s : AppState) (todayStr : String)
    (choice colorInput : Option String) (h : dialogBlank colorInput = true) :
    editEventTypeAction s todayStr choice colorInput = s := by
  by_cases hne : s.event_types.isEmpty = true
  · simp [editEventTypeAction, hne]
  · have hne' : s.event_types.isEmpty = false := by simpa using hne
    cases choice with
    | none => simp [editEventTypeAction, hne']
    | some t =>
        by_cases ht : t = ""
        · simp [editEventTypeAction, hne', ht]
        · cases colorInput with
          | none => simp [editEventTypeAction, hne', ht]
          | some ct =>
              simp only [dialogBlank, decide_eq_true_eq] at h
              simp [editEventTypeAction, hne', ht, h]

theorem deleteType_abort_choice (s : AppState) (choice : Option String)
    (confirmYes : Bool) (h : dialogBlank choice = true) :
    deleteEventTypeAction s choice confirmYes = s := by
  by_cases hne : s.event_types.isEmpty = true
  · simp [deleteEventTypeAction, hne]
  · have hne' : s.event_types.isEmpty = false := by simpa using hne
    cases choice with
    | none => simp [deleteEventTypeAction, hne']
    | some t =>
        simp only [dialogBlank, decide_eq_true_eq] at h
        simp [deleteEventTypeAction, hne', h]

theorem deleteType_abort_no (s : AppState) (choice : Option String)
    (confirmYes : Bool) (h : confirmYes = false) :
    deleteEventTypeAction s choice confirmYes = s := by
  by_cases hne : s.event_types.isEmpty = true
  · simp [deleteEventTypeAction, hne]
  · have hne' : s.event_types.isEmpty = false := by simpa using hne
    cases choice with
    | none => simp [deleteEventTypeAction, hne']
    | some t =>
        by_cases ht : t = ""
        · simp [deleteEventTypeAction, hne', ht]
        · simp [deleteEventTypeAction, hne', ht, h]

/-! The claims. -/

/-- Claim C1: for every well-formed events map M, saving M, loading the
file back and saving again reproduces M exactly — load of the saved
content returns M, the re-saved file equals the originally saved one,
and its parsed content decodes to M. -/
theorem claim1_save_load_save_round_trip (M : EventsMap)
    (_hM : (keysA M).Nodup) (fs : FsState) :
    (load_events (FileRead.content (mkEventsFile M).content)
        (some (mkEventsFile M))).fst = M ∧
    (save_events
        (load_events (FileRead.content (mkEventsFile M).content)
          (some (mkEventsFile M))).fst
        ⟨WriteOutcome.ok, WriteOutcome.ok⟩ fs).fs.file = some (mkEventsFile M) ∧
    decodeEvents (mkEventsFile M).content = some M := by
  have h1 : (load_events (FileRead.content (mkEventsFile M).content)
      (some (mkEventsFile M))).fst = M := by
    simp [load_events, mkEventsFile, decodeEvents_encodeEvents]
  refine ⟨h1, ?_, decodeEvents_encodeEvents M⟩
  rw [h1]
  rfl

/-- Witness for C1 at the spec's sample map. -/
theorem claim1_witness :
    (keysA sampleEvents).Nodup ∧
    ((load_events (FileRead.content (mkEventsFile sampleEvents).content)
        (some (mkEventsFile sampleEvents))).fst = sampleEvents ∧
     (save_events
        (load_events (FileRead.content (mkEventsFile sampleEvents).content)
          (some (mkEventsFile sampleEvents))).fst
        ⟨WriteOutcome.ok, WriteOutcome.ok⟩ ⟨none, true⟩).fs.file =
       some (mkEventsFile sampleEvents) ∧
     decodeEvents (mkEventsFile sampleEvents).content = some sampleEvents) :=
  ⟨by decide, claim1_save_load_save_round_trip sampleEvents (by decide) ⟨none, true⟩⟩

/-- Claim C2: after editing type T's color to c, every event whose type
is T carries color c, every other event is unchanged in all fields, and
the events dict is saved to disk. -/
theorem claim2_edit_type_cascades (s : AppState) (todayStr T c : String)
    (hne : s.event_types.isEmpty = false) (hT : T ≠ "") (hc : c ≠ "") :
    (∀ d r, lookupA s.events d = some r →
        lookupA (editEventTypeAction s todayStr (some T) (some c)).events d =
          some (if r.type = T then { r with color := c } else r)) ∧
    (editEventTypeAction s todayStr (some T) (some c)).disk.eventsFile =
      some (mkEventsFile (editEventTypeAction s todayStr (some T) (some c)).events) := by
  constructor
  · intro d r hr
    simp [editEventTypeAction, hne, hT, hc, lookupA_map_cascade, hr]
  · simp [editEventTypeAction, hne, hT, hc]

/-- Witness for C2: recolor the "Meeting" type in the sample state. -/
theorem claim2_witness :
    lookupA (editEventTypeAction sampleState "2024-03-20"
        (some "Meeting") (some "#00FF00")).events "2024-03-15" =
      some (if (EventRecord.mk "Meeting" "team sync" "#FF5733").type = "Meeting"
            then { EventRecord.mk "Meeting" "team sync" "#FF5733" with color := "#00FF00" }
            else EventRecord.mk "Meeting" "team sync" "#FF5733") ∧
    (editEventTypeAction sampleState "2024-03-20"
        (some "Meeting") (some "#00FF00")).disk.eventsFile =
      some (mkEventsFile (editEventTypeAction sampleState "2024-03-20"
        (some "Meeting") (some "#00FF00")).events) :=
  ⟨(claim2_edit_type_cascades sampleState "2024-03-20" "Meeting" "#00FF00"
      rfl (by decide) (by decide)).1
    "2024-03-15" (EventRecord.mk "Meeting" "team sync" "#FF5733") (by decide),
   (claim2_edit_type_cascades sampleState "2024-03-20" "Meeting" "#00FF00"
      rfl (by decide) (by decide)).2⟩

/-- Counterexample to C3 as stated: with its file absent, the
event-type store does not load as an empty map. -/
theorem claim3_counterexample :
    (load_event_types FileRead.absent none).fst ≠ [] := by decide

/-- Claim C3 (amended): with its file absent, the events store loads as
the empty map, immediately persisted as a file holding the empty JSON
object; the event-type store instead seeds the four default type→color
pairs and immediately persists those. -/
theorem claim3_absent_file_loads (f1 f2 : Option FileData) :
    load_events FileRead.absent f1 = ([], some (mkEventsFile [])) ∧
    (mkEventsFile []).content = Json.obj [] ∧
    load_event_types FileRead.absent f2 =
      (defaultEventTypes, some (mkTypesFile defaultEventTypes)) :=
  ⟨rfl, rfl, rfl⟩

/-- Claim C4: for every date with a record, the highlight pass styles
it with background QColor(record.color) and white text, black instead
when the background's lightness exceeds 200; and when today has no
record, today gets blue text on the light-blue "#ADD8E6" background. -/
theorem claim4_highlight_styles (events : EventsMap) (todayStr : String)
    (formats : FormatMap) (hn : (keysA events).Nodup) :
    (∀ d r, (d, r) ∈ events → r.color ≠ "" →
        lookupA (refresh_highlight events todayStr formats) d =
          some { foreground := if qlightness (parseQColor r.color) > 200
                  then namedColor "black" else namedColor "white",
                 background := parseQColor r.color }) ∧
    (lookupA events todayStr = none →
        lookupA (refresh_highlight events todayStr formats) todayStr =
          some { foreground := namedColor "blue",
                 background := parseQColor "#ADD8E6" }) := by
  constructor
  · intro d r hm hc
    rw [refresh_lookup_of_mem events todayStr formats d r hn hm]
    simp [highlightFormat, hc]
  · intro h
    rw [refresh_lookup_today events todayStr formats h]
    rfl

/-- Witness for C4 on the sample store, with a today that has no event. -/
theorem claim4_witness :
    lookupA (refresh_highlight sampleEvents "2024-03-16" []) "2024-03-15" =
      some { foreground := if qlightness (parseQColor "#FF5733") > 200
              then namedColor "black" else namedColor "white",
             background := parseQColor "#FF5733" } ∧
    lookupA (refresh_highlight sampleEvents "2024-03-16" []) "2024-03-16" =
      some { foreground := namedColor "blue",
             background := parseQColor "#ADD8E6" } :=
  ⟨(claim4_highlight_styles sampleEvents "2024-03-16" [] (by decide)).1
      "2024-03-15" (EventRecord.mk "Meeting" "team sync" "#FF5733")
      (by decide) (by decide),
   (claim4_highlight_styles sampleEvents "2024-03-16" [] (by decide)).2 (by decide)⟩

/-- Claim C5: deleting the event of a date that has one removes the
date from the events dict, saves the dict, and leaves the date's format
at the fallback today-style when the date is today, at the neutral
black-on-white style otherwise. -/
theorem claim5_delete_event (s : AppState) (dateStr todayStr : String)
    (r : EventRecord) (hn : (keysA s.events).Nodup)
    (h : lookupA s.events dateStr = some r) :
    lookupA (removeEventAction s dateStr todayStr).events dateStr = none ∧
    (removeEventAction s dateStr todayStr).disk.eventsFile =
      some (mkEventsFile (removeEventAction s dateStr todayStr).events) ∧
    lookupA (removeEventAction s dateStr todayStr).formats dateStr =
      some (if dateStr = todayStr then todayFallbackFormat else neutralFormat) := by
  have hsome : (lookupA s.events dateStr).isSome = true := by rw [h]; rfl
  have hred : removeEventAction s dateStr todayStr =
      { events := eraseA s.events dateStr,
        event_types := s.event_types,
        formats := if dateStr = todayStr
          then setA (setA s.formats dateStr neutralFormat) dateStr todayFallbackFormat
          else setA s.formats dateStr neutralFormat,
        disk := { s.disk with
          eventsFile := some (mkEventsFile (eraseA s.events dateStr)) } } := by
    by_cases ht : dateStr = todayStr
    · subst ht
      simp [removeEventAction, hsome]
    · simp [removeEventAction, hsome, ht]
  rw [hred]
  refine ⟨lookupA_eraseA_self _ _ hn, rfl, ?_⟩
  by_cases ht : dateStr = todayStr
  · simp [ht, lookupA_setA_self]
  · simp [ht, lookupA_setA_self]

/-- Witness for C5: deleting the sample event on the day it is today. -/
theorem claim5_witness :
    lookupA (removeEventAction sampleState "2024-03-15" "2024-03-15").events
        "2024-03-15" = none ∧
    (removeEventAction sampleState "2024-03-15" "2024-03-15").disk.eventsFile =
      some (mkEventsFile (removeEventAction sampleState "2024-03-15" "2024-03-15").events) ∧
    lookupA (removeEventAction sampleState "2024-03-15" "2024-03-15").formats
        "2024-03-15" =
      some (if "2024-03-15" = "2024-03-15" then todayFallbackFormat else neutralFormat) :=
  claim5_delete_event sampleState "2024-03-15" "2024-03-15"
    (EventRecord.mk "Meeting" "team sync" "#FF5733") (by decide) (by decide)

/-- Counterexample to C6 as stated: on a malformed file, the event-type
store does not load as an empty map. -/
theorem claim6_counterexample :
    (load_event_types FileRead.corrupt none).fst ≠ [] := by decide

/-- Claim C6 (amended): on an unreadable or malformed file, the events
store logs and loads as the empty map with no write; the event-type
store logs and instead recreates and persists the four default types. -/
theorem claim6_corrupt_file_loads (f1 f2 : Option FileData) :
    load_events FileRead.corrupt f1 = ([], f1) ∧
    load_event_types FileRead.corrupt f2 =
      (defaultEventTypes, some (mkTypesFile defaultEventTypes)) :=
  ⟨rfl, rfl⟩

/-- Claim C7: save serializes the whole map in UTF-8 with indentation;
a failing first write is followed by a directory creation and exactly
one retry; a failing retry is dropped without raising, the file keeps
its old content, and the in-memory map is untouched. -/
theorem claim7_save_retry (m : EventsMap) (env : SaveEnv) (fs : FsState) :
    (save_events m env fs).raised = false ∧
    (save_events m env fs).inMemory = encodeEvents m ∧
    (mkEventsFile m).encoding = "utf-8" ∧
    (mkEventsFile m).indent = 2 ∧
    (env.firstWrite = WriteOutcome.ok →
      (save_events m env fs).fs.file = some (mkEventsFile m) ∧
      (save_events m env fs).attempts = 1 ∧
      (save_events m env fs).madeDir = false) ∧
    (env.firstWrite = WriteOutcome.fail →
      (save_events m env fs).attempts = 2 ∧
      (save_events m env fs).madeDir = true ∧
      (save_events m env fs).fs.dirExists = true) ∧
    (env.firstWrite = WriteOutcome.fail → env.secondWrite = WriteOutcome.ok →
      (save_events m env fs).fs.file = some (mkEventsFile m)) ∧
    (env.firstWrite = WriteOutcome.fail → env.secondWrite = WriteOutcome.fail →
      (save_events m env fs).fs.file = fs.file) := by
  obtain ⟨w1, w2⟩ := env
  cases w1 <;> cases w2 <;> simp [save_events, saveFileOp, mkEventsFile]

/-- Witness for C7: both writes fail; nothing is raised, two attempts
were made, and the absent file stays absent. -/
theorem claim7_witness :
    (save_events [] ⟨WriteOutcome.fail, WriteOutcome.fail⟩ ⟨none, false⟩).raised = false ∧
    (save_events [] ⟨WriteOutcome.fail, WriteOutcome.fail⟩ ⟨none, false⟩).attempts = 2 ∧
    (save_events [] ⟨WriteOutcome.fail, WriteOutcome.fail⟩ ⟨none, false⟩).fs.file = none :=
  ⟨(claim7_save_retry [] ⟨WriteOutcome.fail, WriteOutcome.fail⟩ ⟨none, false⟩).1,
   ((claim7_save_retry [] ⟨WriteOutcome.fail, WriteOutcome.fail⟩ ⟨none, false⟩).2.2.2.2.2.1
      rfl).1,
   (claim7_save_retry [] ⟨WriteOutcome.fail, WriteOutcome.fail⟩ ⟨none, false⟩).2.2.2.2.2.2.2
      rfl rfl⟩

/-- Claim C8: in every UI mutation flow, a cancelled or empty input
dialog (and, for delete-type, answering No) aborts the flow with no
change to the events dict, the event-types dict, the formats, or the
on-disk files. -/
theorem claim8_cancel_aborts (s : AppState) (dateStr todayStr : String)
    (desc item ttext ctext ntype tname tcolor echoice ecolor dchoice : Option String)
    (confirmYes : Bool) :
    (dialogBlank desc = true → addEventAction s dateStr desc item ttext ctext = s) ∧
    (s.event_types.isEmpty = false → dialogBlank item = true →
       addEventAction s dateStr desc item ttext ctext = s) ∧
    ((s.event_types.isEmpty = true ∨ item = some "自定义...") →
       dialogBlank ttext = true →
       addEventAction s dateStr desc item ttext ctext = s) ∧
    ((s.event_types.isEmpty = true ∨ item = some "自定义...") →
       dialogBlank ctext = true →
       addEventAction s dateStr desc item ttext ctext = s) ∧
    (dialogBlank ntype = true → editEventAction s dateStr ntype = s) ∧
    (dialogBlank tname = true → addEventTypeAction s tname tcolor = s) ∧
    (dialogBlank tcolor = true → addEventTypeAction s tname tcolor = s) ∧
    (dialogBlank echoice = true → editEventTypeAction s todayStr echoice ecolor = s) ∧
    (dialogBlank ecolor = true → editEventTypeAction s todayStr echoice ecolor = s) ∧
    (dialogBlank dchoice = true → deleteEventTypeAction s dchoice confirmYes = s) ∧
    (confirmYes = false → deleteEventTypeAction s dchoice confirmYes = s) :=
  ⟨fun h => addEvent_abort_desc s dateStr desc item ttext ctext h,
   fun hne h => addEvent_abort_item s dateStr desc item ttext ctext hne h,
   fun hcase h => addEvent_abort_ttext s dateStr desc item ttext ctext hcase h,
   fun hcase h => addEvent_abort_ctext s dateStr desc item ttext ctext hcase h,
   fun h => editEvent_abort s dateStr ntype h,
   fun h => addType_abort_name s tname tcolor h,
   fun h => addType_abort_color s tname tcolor h,
   fun h => editType_abort_choice s todayStr echoice ecolor h,
   fun h => editType_abort_color s todayStr echoice ecolor h,
   fun h => deleteType_abort_choice s dchoice confirmYes h,
   fun h => deleteType_abort_no s dchoice confirmYes h⟩

/-- Witness for C8: one concrete cancelled dialog per flow, each a
no-op on the sample state. -/
theorem claim8_witness :
    addEventAction sampleState "2024-03-15" none (some "Meeting") (some "T") (some "c")
      = sampleState ∧
    addEventAction sampleState "2024-03-15" (some "d") none (some "T") (some "c")
      = sampleState ∧
    addEventAction sampleState "2024-03-15" (some "d") (some "自定义...") none (some "c")
      = sampleState ∧
    addEventAction sampleState "2024-03-15" (some "d") (some "自定义...") (some "T") none
      = sampleState ∧
    editEventAction sampleState "2024-03-15" none = sampleState ∧
    addEventTypeAction sampleState none (some "c") = sampleState ∧
    addEventTypeAction sampleState (some "n") none = sampleState ∧
    editEventTypeAction sampleState "2024-03-15" none (some "c") = sampleState ∧
    editEventTypeAction sampleState "2024-03-15" (some "t") none = sampleState ∧
    deleteEventTypeAction sampleState none true = sampleState ∧
    deleteEventTypeAction sampleState (some "t") false = sampleState :=
  ⟨(claim8_cancel_aborts sampleState "2024-03-15" "2024-03-15" none (some "Meeting")
      (some "T") (some "c") none none none none none none true).1 rfl,
   (claim8_cancel_aborts sampleState "2024-03-15" "2024-03-15" (some "d") none
      (some "T") (some "c") none none none none none none true).2.1 rfl rfl,
   (claim8_cancel_aborts sampleState "2024-03-15" "2024-03-15" (some "d")
      (some "自定义...") none (some "c") none none none none none none true).2.2.1
      (Or.inr rfl) rfl,
   (claim8_cancel_aborts sampleState "2024-03-15" "2024-03-15" (some "d")
      (some "自定义...") (some "T") none none none none none none none true).2.2.2.1
      (Or.inr rfl) rfl,
   (claim8_cancel_aborts sampleState "2024-03-15" "2024-03-15" none none none none
      none none none none none none true).2.2.2.2.1 rfl,
   (claim8_cancel_aborts sampleState "2024-03-15" "2024-03-15" none none none none
      none none (some "c") none none none true).2.2.2.2.2.1 rfl,
   (claim8_cancel_aborts sampleState "2024-03-15" "2024-03-15" none none none none
      none (some "n") none none none none true).2.2.2.2.2.2.1 rfl,
   (claim8_cancel_aborts sampleState "2024-03-15" "2024-03-15" none none none none
      none none none none (some "c") none true).2.2.2.2.2.2.2.1 rfl,
   (claim8_cancel_aborts sampleState "2024-03-15" "2024-03-15" none none none none
      none none none (some "t") none none true).2.2.2.2.2.2.2.2.1 rfl,
   (claim8_cancel_aborts sampleState "2024-03-15" "2024-03-15" none none none none
      none none none none none none true).2.2.2.2.2.2.2.2.2.1 rfl,
   (claim8_cancel_aborts sampleState "2024-03-15" "2024-03-15" none none none none
      none none none none none (some "t") false).2.2.2.2.2.2.2.2.2.2 rfl⟩

/-- Claim C9: the style the highlight pass gives a date with a record
is a function of that record's color alone — two stores agreeing on the
color at d, whatever their other entries or order, style d alike. -/
theorem claim9_style_depends_only_on_color (e1 e2 : EventsMap)
    (todayStr d : String) (f1 f2 : FormatMap) (r1 r2 : EventRecord)
    (h1 : (keysA e1).Nodup) (h2 : (keysA e2).Nodup)
    (m1 : (d, r1) ∈ e1) (m2 : (d, r2) ∈ e2) (hc : r1.color = r2.color) :
    lookupA (refresh_highlight e1 todayStr f1) d =
      lookupA (refresh_highlight e2 todayStr f2) d := by
  rw [refresh_lookup_of_mem e1 todayStr f1 d r1 h1 m1,
      refresh_lookup_of_mem e2 todayStr f2 d r2 h2 m2, hc]

/-- Witness for C9: two stores with different entries and insertion
order but the same color on 2024-03-15. -/
theorem claim9_witness :
    lookupA (refresh_highlight
        [("2024-03-15", EventRecord.mk "A" "x" "#FF5733"),
         ("2024-03-16", EventRecord.mk "B" "y" "blue")] "2024-03-20" [])
      "2024-03-15" =
    lookupA (refresh_highlight
        [("2024-03-16", EventRecord.mk "C" "z" "red"),
         ("2024-03-15", EventRecord.mk "D" "w" "#FF5733")] "2024-03-20" [])
      "2024-03-15" :=
  claim9_style_depends_only_on_color
    [("2024-03-15", EventRecord.mk "A" "x" "#FF5733"),
     ("2024-03-16", EventRecord.mk "B" "y" "blue")]
    [("2024-03-16", EventRecord.mk "C" "z" "red"),
     ("2024-03-15", EventRecord.mk "D" "w" "#FF5733")]
    "2024-03-20" "2024-03-15" [] []
    (EventRecord.mk "A" "x" "#FF5733") (EventRecord.mk "D" "w" "#FF5733")
    (by decide) (by decide) (by decide) (by decide) rfl

/-- Claim C10: the delete-event action on a date with no record changes
nothing at all — events, types, formats and disk are untouched. -/
theorem claim10_delete_missing_noop (s : AppState) (dateStr todayStr : String)
    (h : lookupA s.events dateStr = none) :
    removeEventAction s dateStr todayStr = s := by
  simp [removeEventAction, h]

/-- Witness for C10: deleting on an event-free date of the sample state. -/
theorem claim10_witness :
    removeEventAction sampleState "2099-01-01" "2024-03-15" = sampleState :=
  claim10_delete_missing_noop sampleState "2099-01-01" "2024-03-15" (by decide)

end StickyCalendar
